import Mathlib

/-!
Verification development for the `claim-data-pipeline` repository.

The repository is a pandas ETL script (`src/etl.py`) that extracts a CSV
table, transforms it (header normalization, numeric coercion of `age`,
median imputation, type normalization, age binning, an accident flag, and
column pruning), and writes the result out.  This file shallow-embeds the
data model and the `extract_data` / `transform_data` functions and proves
properties about them.

Modelling conventions:
* a DataFrame is an ordered association list of named columns;
* a cell is missing (`NaN`), a rational number, or a string;
* Python exceptions are modelled with `Except`; `transform_data` returning
  `None` on `None` input is modelled with `Option`;
* floating point arithmetic in the script only ever averages two column
  values (median of an even-sized column) and truncates to `int`, so cells
  are modelled with `ℚ`.
-/

namespace ETL

/-- Scalar cell of a pandas column: the missing marker (`NaN`), a numeric
value, or a string. -/
inductive Val where
  | na : Val
  | num : ℚ → Val
  | str : String → Val
deriving DecidableEq

/-- Python exception kinds the script can raise: `KeyError` (missing column
label), `TypeError` (unsupported operand types, e.g. comparing a string with
an int or taking the median of a string-bearing object column), and
`ValueError` (e.g. `astype(int)` on a non-finite value). -/
inductive PyError where
  | keyError : String → PyError
  | typeError : PyError
  | valueError : PyError
deriving DecidableEq

/-- Column of cells, one per row. -/
abbrev Col := List Val

/-- DataFrame model: ordered list of named columns. -/
structure Table where
  cols : List (String × Col)
deriving DecidableEq

/-- Lookup of the first column with a given name. -/
def lookupCol : List (String × Col) → String → Option Col
  | [], _ => none
  | p :: l, n => if p.1 = n then some p.2 else lookupCol l n

/-- Column selection `df[n]`: the column named `n`, or a `KeyError`. -/
def Table.getCol (t : Table) (n : String) : Except PyError Col :=
  match lookupCol t.cols n with
  | some c => .ok c
  | none => .error (.keyError n)

/-- Presence of a column name in a column list. -/
def hasName : List (String × Col) → String → Bool
  | [], _ => false
  | p :: l, n => p.1 = n || hasName l n

/-- Does a column named `n` exist in the table? -/
def Table.hasColB (t : Table) (n : String) : Bool :=
  hasName t.cols n

/-- Replacement of the content of every column named `n` (column positions
are kept; pandas assignment to an existing label). -/
def replaceCol : List (String × Col) → String → Col → List (String × Col)
  | [], _, _ => []
  | p :: l, n, c => (if p.1 = n then (n, c) else p) :: replaceCol l n c

/-- Column assignment `df[n] = c`: replace an existing column in place,
otherwise append the new column at the right edge. -/
def Table.setCol (t : Table) (n : String) (c : Col) : Table :=
  if hasName t.cols n then ⟨replaceCol t.cols n c⟩ else ⟨t.cols ++ [(n, c)]⟩

/-- Removal of every column whose name is listed. -/
def removeNames : List (String × Col) → List String → List (String × Col)
  | [], _ => []
  | p :: l, ns => if p.1 ∈ ns then removeNames l ns else p :: removeNames l ns

/-- First requested label not present in the column list, if any. -/
def firstMissing : List String → List (String × Col) → Option String
  | [], _ => none
  | n :: ns, l => if hasName l n then firstMissing ns l else some n

/-- Column removal `df.drop(columns=ns)`: `KeyError` if a requested label is
absent, otherwise remove every column whose name is in `ns`. -/
def Table.dropCols (t : Table) (ns : List String) : Except PyError Table :=
  match firstMissing ns t.cols with
  | some n => .error (.keyError n)
  | none => .ok ⟨removeNames t.cols ns⟩

/-- Header normalization of one character.  The script runs
`df.columns.str.lower().str.replace(' ', '_')`; lowering acts character by
character and the replaced pattern is the single character `' '` (which
lowering fixes), so the composition acts character by character. -/
def normChar (c : Char) : Char :=
  if c.toLower = ' ' then '_' else c.toLower

/-- Header normalization of one column name: lower-case it and replace
spaces with underscores. -/
def normalizeName (s : String) : String :=
  String.mk (s.data.map normChar)

/-- Step 1 of the transform: standardize all column names. -/
def Table.normalizeHeaders (t : Table) : Table :=
  ⟨t.cols.map (fun p => (normalizeName p.1, p.2))⟩

/-- Numeric value of a digit run (most significant first). -/
def digitsVal (l : List Char) : ℕ :=
  l.foldl (fun a c => a * 10 + (c.toNat - 48)) 0

/-- Decimal literals accepted by `pd.to_numeric`: optional sign, an integer
part, and an optional fractional part after a dot (at least one digit
overall).  Anything else fails to parse. -/
def parseNum (s : String) : Option ℚ :=
  let unsigned : List Char → Option ℚ := fun cs =>
    let ip := cs.takeWhile (fun c => c.isDigit)
    let rest := cs.dropWhile (fun c => c.isDigit)
    match rest with
    | [] => if ip.isEmpty then none else some (digitsVal ip)
    | c :: fp =>
      if c = '.' ∧ fp.all (fun d => d.isDigit) = true ∧ (ip ≠ [] ∨ fp ≠ [])
      then some ((digitsVal ip : ℚ) + (digitsVal fp : ℚ) / (10 : ℚ) ^ fp.length)
      else none
  match s.data with
  | '-' :: cs => (unsigned cs).map (fun q => -q)
  | '+' :: cs => unsigned cs
  | cs => unsigned cs

/-- Step 2 of the transform, per cell: `pd.to_numeric(·, errors='coerce')`.
Numbers pass through, parseable strings become numbers, anything else
becomes the missing marker; this never raises. -/
def toNumericCoerce : Val → Val
  | .na => .na
  | .num q => .num q
  | .str s =>
    match parseNum s with
    | some q => .num q
    | none => .na

/-- Whole-column numeric coercion of `age`. -/
def coerceAges (c : Col) : Col := c.map toNumericCoerce

/-- Missing-value replacement `col.fillna(v)`: only missing cells change. -/
def fillna (c : Col) (v : Val) : Col :=
  c.map (fun x => if x = .na then v else x)

/-- Numeric entries of a column, missing values skipped (pandas aggregation
skips `NaN`). -/
def colNums (c : Col) : List ℚ :=
  c.filterMap (fun v => match v with | .num q => some q | _ => none)

/-- Insertion into a sorted list. -/
def insertSorted (a : ℚ) : List ℚ → List ℚ
  | [] => [a]
  | b :: l => if a ≤ b then a :: b :: l else b :: insertSorted a l

/-- Insertion sort, used to define the median. -/
def sortQ (l : List ℚ) : List ℚ := l.foldr insertSorted []

/-- Median of a list of numbers: middle element of the sorted list for odd
length, mean of the two middle elements for even length, undefined for the
empty list. -/
def medianList (xs : List ℚ) : Option ℚ :=
  let s := sortQ xs
  let n := s.length
  if n = 0 then none
  else if n % 2 = 1 then s[n / 2]?
  else
    match s[n / 2 - 1]?, s[n / 2]? with
    | some a, some b => some ((a + b) / 2)
    | _, _ => none

/-- Does the column contain a string cell?  A string in a numeric position
makes the pandas series an object column on which `median` raises. -/
def hasStr (c : Col) : Bool :=
  c.any (fun v => match v with | .str _ => true | _ => false)

/-- Median of a column as a cell: `NaN` when every entry is missing
(pandas returns `NaN` for an all-missing median). -/
def medVal (c : Col) : Val :=
  match medianList (colNums c) with
  | some q => .num q
  | none => .na

/-- Series median `col.median()`: raises `TypeError` on an object column
holding strings, otherwise skips missing values. -/
def seriesMedian (c : Col) : Except PyError Val :=
  if hasStr c then .error .typeError else .ok (medVal c)

/-- Step 4 of the transform, per cell: `astype(str)`.  (`NaN` prints as
`"nan"`; the exact rendering of numbers is irrelevant to the claims.) -/
def valToStr : Val → Val
  | .na => .str "nan"
  | .num q => .str (toString q)
  | .str s => .str s

/-- Truncation toward zero, the C cast `float → int` used by
`astype(int)`. -/
def truncQ (q : ℚ) : ℤ :=
  q.num.tdiv (q.den : ℤ)

/-- Step 4 of the transform, per cell: `astype(int)` raises `ValueError`
on missing or string cells and truncates numbers toward zero. -/
def astypeIntVal : Val → Except PyError Val
  | .num q => .ok (.num ((truncQ q : ℤ) : ℚ))
  | _ => .error .valueError

/-- Elementwise fallible map over a column (the evaluation pattern of
`Series.apply`, `astype` and `pd.cut`): the first failing cell raises. -/
def mapE (f : Val → Except PyError Val) : Col → Except PyError Col
  | [] => .ok []
  | v :: l =>
    match f v with
    | .error e => .error e
    | .ok w =>
      match mapE f l with
      | .error e => .error e
      | .ok r => .ok (w :: r)

/-- Step 5 of the transform, per value:
`pd.cut(age, bins=[16, 25, 40, 65, 100], labels=[...], right=False)`.
With `right=False` every interval is left-closed and right-open, the last
one included: `[16,25)`, `[25,40)`, `[40,65)`, `[65,100)`; values outside
all intervals (including `100` itself) get the missing marker. -/
def binQ (q : ℚ) : Val :=
  if 16 ≤ q ∧ q < 25 then .str "16-25"
  else if 25 ≤ q ∧ q < 40 then .str "26-40"
  else if 40 ≤ q ∧ q < 65 then .str "41-65"
  else if 65 ≤ q ∧ q < 100 then .str "65+"
  else .na

/-- Step 5 per cell: `pd.cut` maps missing to missing and raises
`TypeError` on non-numeric data. -/
def cutCell : Val → Except PyError Val
  | .num q => .ok (binQ q)
  | .na => .ok .na
  | .str _ => .error .typeError

/-- Step 5 of the transform, per cell:
`lambda x: 1 if x > 0 else 0` applied to `past_accidents`.  In Python 3,
`NaN > 0` is `False` (so missing maps to `0`) but `str > int` raises
`TypeError`. -/
def accFlag : Val → Except PyError Val
  | .num q => .ok (.num (if 0 < q then 1 else 0))
  | .na => .ok (.num 0)
  | .str _ => .error .typeError

/-- Total description of `accFlag` on string-free columns. -/
def flagTotal : Val → Val
  | .num q => .num (if 0 < q then 1 else 0)
  | _ => .num 0

/-- Composite of `astype(int)` followed by `pd.cut` on a numeric cell. -/
def numBin : Val → Val
  | .num q => binQ ((truncQ q : ℤ) : ℚ)
  | .na => .na
  | .str s => .str s

/-- Imputed `age` column: coerce to numeric, then fill missing entries with
the post-coercion median, falling back to `30` when that median is
undefined (lines 59 and 68–72 of `src/etl.py`). -/
def ageFillVal (c : Col) : Val :=
  if medVal c = Val.na then Val.num 30 else medVal c

/-- Whole imputation pipeline for `age`. -/
def imputeAges (a : Col) : Col :=
  fillna (coerceAges a) (ageFillVal (coerceAges a))

/-- Total description of `astypeIntVal` on all-numeric columns. -/
def astypeIntTotal : Val → Val
  | .num q => .num ((truncQ q : ℤ) : ℚ)
  | v => v

/-- Total description of `cutCell` on all-numeric columns. -/
def cutTotal : Val → Val
  | .num q => binQ q
  | v => v

/-- Column whose every cell is numeric. -/
def AllNum (c : Col) : Prop := ∀ v ∈ c, ∃ q : ℚ, v = Val.num q

/-- Table whose column names are fixed points of header normalization. -/
def NamesNormal (t : Table) : Prop :=
  ∀ p ∈ t.cols, normalizeName p.1 = p.1

/-- Explicit description of the table built by the transform from the
normalized input `u` and the contents `a c m i p` of its `age`,
`credit_score`, `annual_mileage`, `id` and `past_accidents` columns. -/
def pipeTables (u : Table) (a c m i p : Col) : Table :=
  let t1 := u.setCol "age" (coerceAges a)
  let t2 := t1.setCol "credit_score" (fillna c (medVal c))
  let t3 := t2.setCol "annual_mileage" (fillna m (medVal m))
  let t4 := t3.setCol "age" (imputeAges a)
  let t5 := t4.setCol "id" (i.map valToStr)
  let t6 := t5.setCol "age" ((imputeAges a).map astypeIntTotal)
  let t7 := t6.setCol "age_group" ((imputeAges a).map numBin)
  let t8 := t7.setCol "had_past_accidents" (p.map flagTotal)
  Table.mk (removeNames t8.cols ["age", "past_accidents"])

/-- Transform stage on a present table (`transform_data` body after the
`None` guard, lines 47–96 of `src/etl.py`). -/
def transformTable (df0 : Table) : Except PyError Table := do
  -- 1. Standardize column names
  let df := df0.normalizeHeaders
  -- 2. Coerce 'age' to numeric, errors to NaN
  let ageRaw ← df.getCol "age"
  let df := df.setCol "age" (ageRaw.map toNumericCoerce)
  -- 3. Handle missing values
  let cs ← df.getCol "credit_score"
  let csMed ← seriesMedian cs
  let df := df.setCol "credit_score" (fillna cs csMed)
  let am ← df.getCol "annual_mileage"
  let amMed ← seriesMedian am
  let df := df.setCol "annual_mileage" (fillna am amMed)
  let age ← df.getCol "age"
  let ageMed ← seriesMedian age
  let ageMed := if ageMed = Val.na then Val.num 30 else ageMed
  let df := df.setCol "age" (fillna age ageMed)
  -- 4. Correct data types
  let idCol ← df.getCol "id"
  let df := df.setCol "id" (idCol.map valToStr)
  let ageF ← df.getCol "age"
  let ageI ← mapE astypeIntVal ageF
  let df := df.setCol "age" ageI
  -- 5. Feature engineering
  let ageB ← df.getCol "age"
  let grouped ← mapE cutCell ageB
  let df := df.setCol "age_group" grouped
  let pa ← df.getCol "past_accidents"
  let flags ← mapE accFlag pa
  let df := df.setCol "had_past_accidents" flags
  -- 6. Drop the original 'age' and 'past_accidents' columns
  df.dropCols ["age", "past_accidents"]

/-- Transform stage `transform_data` (lines 33–96 of `src/etl.py`): the
absent-result signal passes through without touching the table logic. -/
def transform_data (df : Option Table) : Except PyError (Option Table) :=
  match df with
  | none => .ok none
  | some t => (transformTable t).map some

/-- Content found at a path: no file, a CSV parsing to a table, or an
unreadable/unparseable file. -/
inductive FileContent where
  | absent : FileContent
  | table : Table → FileContent
  | malformed : FileContent

/-- Extraction stage `extract_data` (lines 14–31 of `src/etl.py`) over an
explicit filesystem model: `FileNotFoundError` is caught and converted to
the absent-result signal `None`; other read failures propagate. -/
def extract_data (fs : String → FileContent) (p : String) :
    Except PyError (Option Table) :=
  match fs p with
  | .absent => .ok none
  | .table t => .ok (some t)
  | .malformed => .error .valueError

/-! Concrete input tables used to instantiate the theorems. -/

/-- Four-row table exercising the whole transform: raw headers, a malformed
`age`, missing values in every imputed column. -/
def sampleTable : Table :=
  ⟨[("ID", [.str "a1", .str "a2", .str "a3", .str "a4"]),
    ("AGE", [.num 20, .str "bad", .num 45, .num 100]),
    ("Credit Score", [.num 610, .na, .num 700, .num 650]),
    ("ANNUAL MILEAGE", [.num 12000, .num 11000, .na, .num 13000]),
    ("PAST_ACCIDENTS", [.num 0, .num 2, .na, .num 1])]⟩

/-- Output of the transform on `sampleTable`: medians are 650, 12000 and 45;
the malformed age becomes 45 (the age median) and age 100 is unmapped. -/
def sampleOut : Table :=
  ⟨[("id", [.str "a1", .str "a2", .str "a3", .str "a4"]),
    ("credit_score", [.num 610, .num 650, .num 700, .num 650]),
    ("annual_mileage", [.num 12000, .num 11000, .num 12000, .num 13000]),
    ("age_group", [.str "16-25", .str "41-65", .str "41-65", .na]),
    ("had_past_accidents", [.num 0, .num 1, .num 0, .num 1])]⟩

/-- Does the pipeline result signal a `KeyError`? -/
def isKeyError : Except PyError (Option Table) → Bool
  | .error (.keyError _) => true
  | _ => false

/-- One-row table whose `age` is exactly `100`. -/
def tableAge100 : Table :=
  ⟨[("id", [.str "a"]), ("age", [.num 100]), ("credit_score", [.num 600]),
    ("annual_mileage", [.num 12000]), ("past_accidents", [.num 0])]⟩

/-- One-row table whose `age` is `10` (below every bin). -/
def tableAge10 : Table :=
  ⟨[("id", [.str "a"]), ("age", [.num 10]), ("credit_score", [.num 600]),
    ("annual_mileage", [.num 12000]), ("past_accidents", [.num 0])]⟩

/-- One-row table whose `past_accidents` entry is a non-numeric string. -/
def tableBadPA : Table :=
  ⟨[("id", [.str "a"]), ("age", [.num 20]), ("credit_score", [.num 600]),
    ("annual_mileage", [.num 12000]), ("past_accidents", [.str "bad"])]⟩

/-- Two-row table whose `age` entries are all malformed or missing. -/
def tableAllBadAge : Table :=
  ⟨[("id", [.str "a", .str "b"]), ("age", [.str "bad", .na]),
    ("credit_score", [.num 600, .num 620]),
    ("annual_mileage", [.num 12000, .na]),
    ("past_accidents", [.num 0, .num 3])]⟩

/-- One-row table lacking the `past_accidents` column. -/
def tableNoPA : Table :=
  ⟨[("id", [.str "a"]), ("age", [.num 20]), ("credit_score", [.num 600]),
    ("annual_mileage", [.num 12000])]⟩

/-- One-row already-normalized table with no missing values. -/
def tinyTable : Table :=
  ⟨[("id", [.str "a"]), ("age", [.num 20]), ("credit_score", [.num 600]),
    ("annual_mileage", [.num 12000]), ("past_accidents", [.num 0])]⟩

/-- Output of the transform on `tinyTable`. -/
def tinyOut : Table :=
  ⟨[("id", [.str "a"]), ("credit_score", [.num 600]),
    ("annual_mileage", [.num 12000]), ("age_group", [.str "16-25"]),
    ("had_past_accidents", [.num 0])]⟩

/-! Lemmas about the table primitives. -/

theorem lookupCol_append (l₁ l₂ : List (String × Col)) (n : String) :
    lookupCol (l₁ ++ l₂) n =
      match lookupCol l₁ n with
      | some c => some c
      | none => lookupCol l₂ n := by
  induction l₁ with
  | nil => simp [lookupCol]
  | cons p l ih =>
    by_cases h : p.1 = n
    · simp [lookupCol, h]
    · simp [lookupCol, h, ih]

theorem lookupCol_eq_none_iff (l : List (String × Col)) (n : String) :
    lookupCol l n = none ↔ hasName l n = false := by
  induction l with
  | nil => simp [lookupCol, hasName]
  | cons p l ih =>
    by_cases h : p.1 = n
    · simp [lookupCol, hasName, h]
    · simp [lookupCol, hasName, h, ih]

theorem lookupCol_eq_none_of_names (l : List (String × Col)) (n : String)
    (h : ∀ p ∈ l, p.1 ≠ n) : lookupCol l n = none := by
  induction l with
  | nil => rfl
  | cons p l ih =>
    have hp : p.1 ≠ n := h p (by simp)
    simp only [lookupCol, if_neg hp]
    exact ih (fun q hq => h q (by simp [hq]))

theorem hasName_replaceCol (l : List (String × Col)) (n m : String) (c : Col) :
    hasName (replaceCol l n c) m = hasName l m := by
  induction l with
  | nil => rfl
  | cons p l ih =>
    by_cases h : p.1 = n
    · simp [replaceCol, hasName, h, ih]
    · simp [replaceCol, hasName, h, ih]

theorem hasName_append (l₁ l₂ : List (String × Col)) (n : String) :
    hasName (l₁ ++ l₂) n = (hasName l₁ n || hasName l₂ n) := by
  induction l₁ with
  | nil => simp [hasName]
  | cons p l ih => simp [hasName, ih, Bool.or_assoc]

theorem lookupCol_replaceCol_self (l : List (String × Col)) (n : String)
    (c : Col) (h : hasName l n = true) :
    lookupCol (replaceCol l n c) n = some c := by
  induction l with
  | nil => simp [hasName] at h
  | cons p l ih =>
    by_cases hp : p.1 = n
    · simp [replaceCol, hp, lookupCol]
    · have h2 : hasName l n = true := by
        simpa [hasName, hp] using h
      simp [replaceCol, hp, lookupCol, ih h2]

theorem lookupCol_replaceCol_ne (l : List (String × Col)) (n m : String)
    (c : Col) (h : m ≠ n) :
    lookupCol (replaceCol l n c) m = lookupCol l m := by
  induction l with
  | nil => rfl
  | cons p l ih =>
    by_cases hp : p.1 = n
    · have hm : ¬ p.1 = m := by rw [hp]; exact fun hh => h hh.symm
      simp [replaceCol, lookupCol, hp, Ne.symm h, hm, ih]
    · simp [replaceCol, lookupCol, hp, ih]

theorem getCol_setCol_self (t : Table) (n : String) (c : Col) :
    (t.setCol n c).getCol n = .ok c := by
  unfold Table.setCol
  by_cases h : hasName t.cols n
  · simp [Table.getCol, h, lookupCol_replaceCol_self t.cols n c h]
  · have hn : lookupCol t.cols n = none := (lookupCol_eq_none_iff _ _).2 (by simpa using h)
    simp [Table.getCol, h, lookupCol_append, hn, lookupCol]

theorem getCol_setCol_ne (t : Table) (n m : String) (c : Col) (h : m ≠ n) :
    (t.setCol n c).getCol m = t.getCol m := by
  unfold Table.setCol
  by_cases hn : hasName t.cols n
  · simp [Table.getCol, hn, lookupCol_replaceCol_ne t.cols n m c h]
  · simp only [hn, if_neg, Bool.false_eq_true, ite_false]
    unfold Table.getCol
    rw [lookupCol_append]
    cases hl : lookupCol t.cols m with
    | some c2 => simp
    | none => simp [lookupCol, Ne.symm h]

theorem hasColB_setCol_self (t : Table) (n : String) (c : Col) :
    (t.setCol n c).hasColB n = true := by
  unfold Table.setCol
  by_cases h : hasName t.cols n
  · simp [Table.hasColB, h, hasName_replaceCol, h]
  · simp [Table.hasColB, h, hasName_append, hasName]

theorem hasColB_setCol_mono (t : Table) (n m : String) (c : Col)
    (h : t.hasColB m = true) : (t.setCol n c).hasColB m = true := by
  unfold Table.setCol
  by_cases hn : hasName t.cols n
  · simp [Table.hasColB, hn, hasName_replaceCol]
    exact h
  · simp [Table.hasColB, hn, hasName_append]
    exact Or.inl h

theorem lookupCol_removeNames_of_mem (l : List (String × Col))
    (ns : List String) (m : String) (h : m ∈ ns) :
    lookupCol (removeNames l ns) m = none := by
  induction l with
  | nil => rfl
  | cons p l ih =>
    by_cases hp : p.1 ∈ ns
    · simp [removeNames, hp, ih]
    · have hm : p.1 ≠ m := fun hh => hp (hh ▸ h)
      simp [removeNames, hp, lookupCol, hm, ih]

theorem hasName_removeNames_of_mem (l : List (String × Col))
    (ns : List String) (m : String) (h : m ∈ ns) :
    hasName (removeNames l ns) m = false := by
  induction l with
  | nil => rfl
  | cons p l ih =>
    by_cases hp : p.1 ∈ ns
    · simp [removeNames, hp, ih]
    · have hm : p.1 ≠ m := fun hh => hp (hh ▸ h)
      simp [removeNames, hp, hasName, hm, ih]

theorem lookupCol_removeNames_of_not_mem (l : List (String × Col))
    (ns : List String) (m : String) (h : m ∉ ns) :
    lookupCol (removeNames l ns) m = lookupCol l m := by
  induction l with
  | nil => rfl
  | cons p l ih =>
    by_cases hp : p.1 ∈ ns
    · have hm : ¬ p.1 = m := fun hh => h (hh ▸ hp)
      simp [removeNames, hp, lookupCol, hm, ih]
    · simp [removeNames, hp, lookupCol, ih]

theorem mem_removeNames (l : List (String × Col)) (ns : List String)
    (p : String × Col) (h : p ∈ removeNames l ns) : p ∈ l := by
  induction l with
  | nil => simp [removeNames] at h
  | cons q l ih =>
    by_cases hq : q.1 ∈ ns
    · simp only [removeNames, if_pos hq] at h
      exact List.mem_cons_of_mem q (ih h)
    · simp only [removeNames, if_neg hq, List.mem_cons] at h
      rcases h with h | h
      · exact h ▸ List.mem_cons_self q l
      · exact List.mem_cons_of_mem q (ih h)

theorem mem_replaceCol (l : List (String × Col)) (n : String) (c : Col)
    (p : String × Col) (h : p ∈ replaceCol l n c) : p ∈ l ∨ p = (n, c) := by
  induction l with
  | nil => simp [replaceCol] at h
  | cons q l ih =>
    simp only [replaceCol, List.mem_cons] at h
    rcases h with h | h
    · by_cases hq : q.1 = n
      · right; simpa [hq] using h
      · left; simp [hq] at h; simp [h]
    · rcases ih h with h2 | h2
      · exact Or.inl (List.mem_cons_of_mem q h2)
      · exact Or.inr h2

theorem mem_setCol (t : Table) (n : String) (c : Col) (p : String × Col)
    (h : p ∈ (t.setCol n c).cols) : p ∈ t.cols ∨ p = (n, c) := by
  unfold Table.setCol at h
  by_cases hn : hasName t.cols n
  · simp only [hn, if_pos] at h
    exact mem_replaceCol t.cols n c p h
  · simp only [hn, Bool.false_eq_true, ite_false, List.mem_append,
      List.mem_singleton] at h
    exact h

/-! Lemmas about the cell-level operations. -/

theorem toNumericCoerce_num_or_na (v : Val) :
    (∃ q : ℚ, toNumericCoerce v = .num q) ∨ toNumericCoerce v = .na := by
  cases v with
  | na => exact Or.inr rfl
  | num q => exact Or.inl ⟨q, rfl⟩
  | str s =>
    cases hp : parseNum s with
    | none => exact Or.inr (by simp [toNumericCoerce, hp])
    | some q => exact Or.inl ⟨q, by simp [toNumericCoerce, hp]⟩

theorem hasStr_coerceAges (a : Col) : hasStr (coerceAges a) = false := by
  induction a with
  | nil => rfl
  | cons v l ih =>
    have h := toNumericCoerce_num_or_na v
    rcases h with ⟨q, hq⟩ | hq <;>
      simp [coerceAges, hasStr, hq] <;>
      simpa [hasStr, coerceAges] using ih

theorem medVal_num_or_na (c : Col) :
    (∃ q : ℚ, medVal c = .num q) ∨ medVal c = .na := by
  unfold medVal
  cases medianList (colNums c) with
  | none => exact Or.inr rfl
  | some q => exact Or.inl ⟨q, rfl⟩

theorem ageFillVal_isNum (c : Col) : ∃ q : ℚ, ageFillVal c = .num q := by
  unfold ageFillVal
  by_cases h : medVal c = Val.na
  · simp [h]
  · rcases medVal_num_or_na c with ⟨q, hq⟩ | hq
    · exact ⟨q, by simp [h, hq]⟩
    · exact absurd hq h

theorem allNum_imputeAges (a : Col) : AllNum (imputeAges a) := by
  intro v hv
  unfold imputeAges fillna at hv
  rcases List.mem_map.1 hv with ⟨x, hx, rfl⟩
  rcases ageFillVal_isNum (coerceAges a) with ⟨q, hq⟩
  by_cases hna : x = Val.na
  · simp only [hna, if_pos rfl]
    exact ⟨q, hq⟩
  · simp only [if_neg hna]
    unfold coerceAges at hx
    rcases List.mem_map.1 hx with ⟨y, _, rfl⟩
    rcases toNumericCoerce_num_or_na y with ⟨r, hr⟩ | hr
    · exact ⟨r, hr⟩
    · exact absurd hr hna

theorem mapE_ok_length (f : Val → Except PyError Val) (l r : Col)
    (h : mapE f l = .ok r) : r.length = l.length := by
  induction l generalizing r with
  | nil =>
    simp only [mapE] at h
    cases h; rfl
  | cons v l ih =>
    simp only [mapE] at h
    cases hf : f v with
    | error e => rw [hf] at h; cases h
    | ok w =>
      rw [hf] at h
      cases hm : mapE f l with
      | error e => rw [hm] at h; cases h
      | ok r2 =>
        rw [hm] at h
        cases h
        simp [ih r2 hm]

theorem hasStr_cons (v : Val) (l : Col) :
    hasStr (v :: l) =
      ((match v with | .str _ => true | _ => false) || hasStr l) := rfl

theorem mapE_accFlag_of_noStr (p : Col) (h : hasStr p = false) :
    mapE accFlag p = .ok (p.map flagTotal) := by
  induction p with
  | nil => rfl
  | cons v l ih =>
    rw [hasStr_cons, Bool.or_eq_false_iff] at h
    have hl : hasStr l = false := h.2
    cases v with
    | na => simp [mapE, accFlag, flagTotal, ih hl]
    | num q => simp [mapE, accFlag, flagTotal, ih hl]
    | str s => simp at h

theorem mapE_accFlag_ok_noStr (p r : Col) (h : mapE accFlag p = .ok r) :
    hasStr p = false := by
  induction p generalizing r with
  | nil => rfl
  | cons v l ih =>
    simp only [mapE] at h
    cases v with
    | str s => simp [accFlag] at h
    | na =>
      simp only [accFlag] at h
      cases hm : mapE accFlag l with
      | error e => rw [hm] at h; cases h
      | ok r2 =>
        rw [hasStr_cons, Bool.or_eq_false_iff]
        exact ⟨rfl, ih r2 hm⟩
    | num q =>
      simp only [accFlag] at h
      cases hm : mapE accFlag l with
      | error e => rw [hm] at h; cases h
      | ok r2 =>
        rw [hasStr_cons, Bool.or_eq_false_iff]
        exact ⟨rfl, ih r2 hm⟩

theorem mapE_astypeIntVal_of_allNum (c : Col) (h : AllNum c) :
    mapE astypeIntVal c = .ok (c.map astypeIntTotal) := by
  induction c with
  | nil => rfl
  | cons v l ih =>
    rcases h v (by simp) with ⟨q, rfl⟩
    have hl : AllNum l := fun w hw => h w (by simp [hw])
    simp [mapE, astypeIntVal, astypeIntTotal, ih hl]

theorem allNum_map_astypeIntTotal (c : Col) (h : AllNum c) :
    AllNum (c.map astypeIntTotal) := by
  intro v hv
  rcases List.mem_map.1 hv with ⟨x, hx, rfl⟩
  rcases h x hx with ⟨q, rfl⟩
  exact ⟨((truncQ q : ℤ) : ℚ), rfl⟩

theorem mapE_cutCell_of_allNum (c : Col) (h : AllNum c) :
    mapE cutCell c = .ok (c.map cutTotal) := by
  induction c with
  | nil => rfl
  | cons v l ih =>
    rcases h v (by simp) with ⟨q, rfl⟩
    have hl : AllNum l := fun w hw => h w (by simp [hw])
    simp [mapE, cutCell, cutTotal, ih hl]

theorem cutTotal_astypeIntTotal (v : Val) :
    cutTotal (astypeIntTotal v) = numBin v := by
  cases v <;> rfl

theorem map_astype_cut_eq_numBin (c : Col) :
    (c.map astypeIntTotal).map cutTotal = c.map numBin := by
  rw [List.map_map]
  exact List.map_congr_left (fun v _ => cutTotal_astypeIntTotal v)

theorem seriesMedian_of_noStr (c : Col) (h : hasStr c = false) :
    seriesMedian c = .ok (medVal c) := by
  simp [seriesMedian, h]

theorem seriesMedian_ok_noStr (c : Col) (v : Val)
    (h : seriesMedian c = .ok v) : hasStr c = false := by
  unfold seriesMedian at h
  by_cases hs : hasStr c
  · simp [hs] at h
  · simpa using hs

theorem ok_bind {α β : Type} (x : α) (f : α → Except PyError β) :
    (Except.ok x : Except PyError α) >>= f = f x := rfl

theorem error_bind {α β : Type} (e : PyError) (f : α → Except PyError β) :
    (Except.error e : Except PyError α) >>= f = .error e := rfl

theorem hasName_setCol_self (t : Table) (n : String) (c : Col) :
    hasName (t.setCol n c).cols n = true :=
  hasColB_setCol_self t n c

theorem hasName_setCol_mono (t : Table) (n m : String) (c : Col)
    (h : hasName t.cols m = true) : hasName (t.setCol n c).cols m = true :=
  hasColB_setCol_mono t n m c h

theorem getCol_ok_hasName (t : Table) (n : String) (c : Col)
    (h : t.getCol n = .ok c) : hasName t.cols n = true := by
  unfold Table.getCol at h
  cases hl : lookupCol t.cols n with
  | none => rw [hl] at h; cases h
  | some c2 =>
    by_cases hn : hasName t.cols n
    · exact hn
    · rw [(lookupCol_eq_none_iff _ _).2 (by simpa using hn)] at hl
      cases hl

/-- Master evaluation lemma: on a table that, after header normalization,
has the five required columns, with no string entries in `credit_score`,
`annual_mileage` and `past_accidents`, the transform succeeds and produces
exactly the table described by `pipeTables`. -/
theorem transform_eval (t0 : Table) (a c m i p : Col)
    (hA : (t0.normalizeHeaders).getCol "age" = .ok a)
    (hC : (t0.normalizeHeaders).getCol "credit_score" = .ok c)
    (hM : (t0.normalizeHeaders).getCol "annual_mileage" = .ok m)
    (hI : (t0.normalizeHeaders).getCol "id" = .ok i)
    (hP : (t0.normalizeHeaders).getCol "past_accidents" = .ok p)
    (hCs : hasStr c = false) (hMs : hasStr m = false)
    (hPs : hasStr p = false) :
    transformTable t0 = .ok (pipeTables t0.normalizeHeaders a c m i p) := by
  unfold transformTable
  dsimp only
  rw [hA, ok_bind]
  rw [show List.map toNumericCoerce a = coerceAges a from rfl]
  rw [getCol_setCol_ne _ _ _ _ (by decide), hC, ok_bind]
  rw [seriesMedian_of_noStr c hCs, ok_bind]
  rw [getCol_setCol_ne _ _ _ _ (by decide),
    getCol_setCol_ne _ _ _ _ (by decide), hM, ok_bind]
  rw [seriesMedian_of_noStr m hMs, ok_bind]
  rw [getCol_setCol_ne _ _ _ _ (by decide),
    getCol_setCol_ne _ _ _ _ (by decide), getCol_setCol_self, ok_bind]
  rw [seriesMedian_of_noStr _ (hasStr_coerceAges a), ok_bind]
  rw [show fillna (coerceAges a)
      (if medVal (coerceAges a) = Val.na then Val.num 30
       else medVal (coerceAges a)) = imputeAges a from rfl]
  rw [getCol_setCol_ne _ _ _ _ (by decide),
    getCol_setCol_ne _ _ _ _ (by decide),
    getCol_setCol_ne _ _ _ _ (by decide),
    getCol_setCol_ne _ _ _ _ (by decide), hI, ok_bind]
  rw [getCol_setCol_ne _ _ _ _ (by decide), getCol_setCol_self, ok_bind]
  rw [mapE_astypeIntVal_of_allNum _ (allNum_imputeAges a), ok_bind]
  rw [getCol_setCol_self, ok_bind]
  rw [mapE_cutCell_of_allNum _
    (allNum_map_astypeIntTotal _ (allNum_imputeAges a)), ok_bind]
  rw [getCol_setCol_ne _ _ _ _ (by decide),
    getCol_setCol_ne _ _ _ _ (by decide),
    getCol_setCol_ne _ _ _ _ (by decide),
    getCol_setCol_ne _ _ _ _ (by decide),
    getCol_setCol_ne _ _ _ _ (by decide),
    getCol_setCol_ne _ _ _ _ (by decide),
    getCol_setCol_ne _ _ _ _ (by decide), hP, ok_bind]
  rw [mapE_accFlag_of_noStr p hPs, ok_bind]
  rw [map_astype_cut_eq_numBin]
  unfold Table.dropCols
  have h1 : hasName ((((((((t0.normalizeHeaders.setCol "age"
      (coerceAges a)).setCol "credit_score" (fillna c (medVal c))).setCol
      "annual_mileage" (fillna m (medVal m))).setCol "age"
      (imputeAges a)).setCol "id" (i.map valToStr)).setCol "age"
      ((imputeAges a).map astypeIntTotal)).setCol "age_group"
      ((imputeAges a).map numBin)).setCol "had_past_accidents"
      (p.map flagTotal)).cols "age" = true := by
    apply hasName_setCol_mono
    apply hasName_setCol_mono
    exact hasName_setCol_self _ _ _
  have h2 : hasName ((((((((t0.normalizeHeaders.setCol "age"
      (coerceAges a)).setCol "credit_score" (fillna c (medVal c))).setCol
      "annual_mileage" (fillna m (medVal m))).setCol "age"
      (imputeAges a)).setCol "id" (i.map valToStr)).setCol "age"
      ((imputeAges a).map astypeIntTotal)).setCol "age_group"
      ((imputeAges a).map numBin)).setCol "had_past_accidents"
      (p.map flagTotal)).cols "past_accidents" = true := by
    apply hasName_setCol_mono
    apply hasName_setCol_mono
    apply hasName_setCol_mono
    apply hasName_setCol_mono
    apply hasName_setCol_mono
    apply hasName_setCol_mono
    apply hasName_setCol_mono
    apply hasName_setCol_mono
    exact getCol_ok_hasName _ _ _ hP
  simp only [firstMissing, Table.hasColB, h1, h2, if_true, pipeTables]

theorem getCol_mk_removeNames (t : Table) (ns : List String) (n : String)
    (h : n ∉ ns) :
    (Table.mk (removeNames t.cols ns)).getCol n = t.getCol n := by
  unfold Table.getCol
  rw [lookupCol_removeNames_of_not_mem t.cols ns n h]

theorem lookupCol_mem (l : List (String × Col)) (n : String) (c : Col)
    (h : lookupCol l n = some c) : ∃ p ∈ l, p.2 = c := by
  induction l with
  | nil => cases h
  | cons q l ih =>
    by_cases hq : q.1 = n
    · simp only [lookupCol, if_pos hq] at h
      exact ⟨q, by simp, by cases h; rfl⟩
    · simp only [lookupCol, if_neg hq] at h
      rcases ih h with ⟨p, hp, hc⟩
      exact ⟨p, by simp [hp], hc⟩

theorem getCol_ok_mem (t : Table) (n : String) (c : Col)
    (h : t.getCol n = .ok c) : ∃ p ∈ t.cols, p.2 = c := by
  unfold Table.getCol at h
  cases hl : lookupCol t.cols n with
  | none => rw [hl] at h; cases h
  | some c2 =>
    rw [hl] at h
    cases h
    exact lookupCol_mem t.cols n c hl

theorem pipe_getCol_credit (u : Table) (a c m i p : Col) :
    (pipeTables u a c m i p).getCol "credit_score" =
      .ok (fillna c (medVal c)) := by
  dsimp only [pipeTables]
  rw [getCol_mk_removeNames _ _ _ (by decide)]
  rw [getCol_setCol_ne _ _ _ _ (by decide), getCol_setCol_ne _ _ _ _ (by decide),
    getCol_setCol_ne _ _ _ _ (by decide), getCol_setCol_ne _ _ _ _ (by decide),
    getCol_setCol_ne _ _ _ _ (by decide), getCol_setCol_ne _ _ _ _ (by decide)]
  exact getCol_setCol_self _ _ _

theorem pipe_getCol_mileage (u : Table) (a c m i p : Col) :
    (pipeTables u a c m i p).getCol "annual_mileage" =
      .ok (fillna m (medVal m)) := by
  dsimp only [pipeTables]
  rw [getCol_mk_removeNames _ _ _ (by decide)]
  rw [getCol_setCol_ne _ _ _ _ (by decide), getCol_setCol_ne _ _ _ _ (by decide),
    getCol_setCol_ne _ _ _ _ (by decide), getCol_setCol_ne _ _ _ _ (by decide),
    getCol_setCol_ne _ _ _ _ (by decide)]
  exact getCol_setCol_self _ _ _

theorem pipe_getCol_id (u : Table) (a c m i p : Col) :
    (pipeTables u a c m i p).getCol "id" = .ok (i.map valToStr) := by
  dsimp only [pipeTables]
  rw [getCol_mk_removeNames _ _ _ (by decide)]
  rw [getCol_setCol_ne _ _ _ _ (by decide), getCol_setCol_ne _ _ _ _ (by decide),
    getCol_setCol_ne _ _ _ _ (by decide)]
  exact getCol_setCol_self _ _ _

theorem pipe_getCol_ageGroup (u : Table) (a c m i p : Col) :
    (pipeTables u a c m i p).getCol "age_group" =
      .ok ((imputeAges a).map numBin) := by
  dsimp only [pipeTables]
  rw [getCol_mk_removeNames _ _ _ (by decide)]
  rw [getCol_setCol_ne _ _ _ _ (by decide)]
  exact getCol_setCol_self _ _ _

theorem pipe_getCol_flag (u : Table) (a c m i p : Col) :
    (pipeTables u a c m i p).getCol "had_past_accidents" =
      .ok (p.map flagTotal) := by
  dsimp only [pipeTables]
  rw [getCol_mk_removeNames _ _ _ (by decide)]
  exact getCol_setCol_self _ _ _

theorem pipe_getCol_age_err (u : Table) (a c m i p : Col) :
    (pipeTables u a c m i p).getCol "age" = .error (.keyError "age") := by
  dsimp only [pipeTables]
  unfold Table.getCol
  rw [lookupCol_removeNames_of_mem _ _ _ (by decide)]

theorem pipe_hasName_age_false (u : Table) (a c m i p : Col) :
    hasName (pipeTables u a c m i p).cols "age" = false := by
  dsimp only [pipeTables]
  exact hasName_removeNames_of_mem _ _ _ (by decide)

theorem pipe_hasName_pa_false (u : Table) (a c m i p : Col) :
    hasName (pipeTables u a c m i p).cols "past_accidents" = false := by
  dsimp only [pipeTables]
  exact hasName_removeNames_of_mem _ _ _ (by decide)

/-- Inversion: whenever the transform succeeds, the five required columns
were present after header normalization, the imputed and flagged columns
held no strings, and the output is exactly `pipeTables`. -/
theorem transform_ok_inv (t0 t' : Table)
    (h : transformTable t0 = .ok t') :
    ∃ a c m i p,
      (t0.normalizeHeaders).getCol "age" = .ok a ∧
      (t0.normalizeHeaders).getCol "credit_score" = .ok c ∧
      (t0.normalizeHeaders).getCol "annual_mileage" = .ok m ∧
      (t0.normalizeHeaders).getCol "id" = .ok i ∧
      (t0.normalizeHeaders).getCol "past_accidents" = .ok p ∧
      hasStr c = false ∧ hasStr m = false ∧ hasStr p = false ∧
      t' = pipeTables t0.normalizeHeaders a c m i p := by
  have h2 := h
  unfold transformTable at h2
  dsimp only at h2
  cases hA : (t0.normalizeHeaders).getCol "age" with
  | error e => rw [hA, error_bind] at h2; cases h2
  | ok a =>
  rw [hA, ok_bind] at h2
  rw [show List.map toNumericCoerce a = coerceAges a from rfl] at h2
  rw [getCol_setCol_ne _ _ _ _ (by decide)] at h2
  cases hC : (t0.normalizeHeaders).getCol "credit_score" with
  | error e => rw [hC, error_bind] at h2; cases h2
  | ok c =>
  rw [hC, ok_bind] at h2
  cases hMed : seriesMedian c with
  | error e => rw [hMed, error_bind] at h2; cases h2
  | ok v =>
  have hCs := seriesMedian_ok_noStr c v hMed
  rw [hMed, ok_bind] at h2
  rw [getCol_setCol_ne _ _ _ _ (by decide),
    getCol_setCol_ne _ _ _ _ (by decide)] at h2
  cases hM : (t0.normalizeHeaders).getCol "annual_mileage" with
  | error e => rw [hM, error_bind] at h2; cases h2
  | ok m =>
  rw [hM, ok_bind] at h2
  cases hMed2 : seriesMedian m with
  | error e => rw [hMed2, error_bind] at h2; cases h2
  | ok w =>
  have hMs := seriesMedian_ok_noStr m w hMed2
  rw [hMed2, ok_bind] at h2
  rw [getCol_setCol_ne _ _ _ _ (by decide),
    getCol_setCol_ne _ _ _ _ (by decide), getCol_setCol_self, ok_bind] at h2
  rw [seriesMedian_of_noStr _ (hasStr_coerceAges a), ok_bind] at h2
  rw [getCol_setCol_ne _ _ _ _ (by decide),
    getCol_setCol_ne _ _ _ _ (by decide),
    getCol_setCol_ne _ _ _ _ (by decide),
    getCol_setCol_ne _ _ _ _ (by decide)] at h2
  cases hI : (t0.normalizeHeaders).getCol "id" with
  | error e => rw [hI, error_bind] at h2; cases h2
  | ok i =>
  rw [hI, ok_bind] at h2
  rw [show fillna (coerceAges a)
      (if medVal (coerceAges a) = Val.na then Val.num 30
       else medVal (coerceAges a)) = imputeAges a from rfl] at h2
  rw [getCol_setCol_ne _ _ _ _ (by decide), getCol_setCol_self, ok_bind] at h2
  rw [mapE_astypeIntVal_of_allNum _ (allNum_imputeAges a), ok_bind] at h2
  rw [getCol_setCol_self, ok_bind] at h2
  rw [mapE_cutCell_of_allNum _
    (allNum_map_astypeIntTotal _ (allNum_imputeAges a)), ok_bind] at h2
  rw [getCol_setCol_ne _ _ _ _ (by decide),
    getCol_setCol_ne _ _ _ _ (by decide),
    getCol_setCol_ne _ _ _ _ (by decide),
    getCol_setCol_ne _ _ _ _ (by decide),
    getCol_setCol_ne _ _ _ _ (by decide),
    getCol_setCol_ne _ _ _ _ (by decide),
    getCol_setCol_ne _ _ _ _ (by decide)] at h2
  cases hP : (t0.normalizeHeaders).getCol "past_accidents" with
  | error e => rw [hP, error_bind] at h2; cases h2
  | ok p =>
  cases hFlag : mapE accFlag p with
  | error e => rw [hP, ok_bind, hFlag, error_bind] at h2; cases h2
  | ok r =>
  have hPs := mapE_accFlag_ok_noStr p r hFlag
  rw [transform_eval t0 a c m i p hA hC hM hI hP hCs hMs hPs] at h
  exact ⟨a, c, m, i, p, rfl, rfl, rfl, rfl, rfl, hCs, hMs, hPs,
    (Except.ok.inj h).symm⟩

/-! Characterization of the binning function. -/

theorem binQ_eq_low (q : ℚ) : binQ q = Val.str "16-25" ↔ 16 ≤ q ∧ q < 25 := by
  unfold binQ
  constructor
  · intro h
    split_ifs at h with h1 h2 h3 h4
    · exact h1
    · exact absurd (Val.str.inj h) (by decide)
    · exact absurd (Val.str.inj h) (by decide)
    · exact absurd (Val.str.inj h) (by decide)
  · intro h
    rw [if_pos h]

theorem binQ_eq_mid (q : ℚ) : binQ q = Val.str "26-40" ↔ 25 ≤ q ∧ q < 40 := by
  unfold binQ
  constructor
  · intro h
    split_ifs at h with h1 h2 h3 h4
    · exact absurd (Val.str.inj h) (by decide)
    · exact h2
    · exact absurd (Val.str.inj h) (by decide)
    · exact absurd (Val.str.inj h) (by decide)
  · intro h
    rw [if_neg (by rintro ⟨_, hb⟩; linarith [h.1]), if_pos h]

theorem binQ_eq_upper (q : ℚ) : binQ q = Val.str "41-65" ↔ 40 ≤ q ∧ q < 65 := by
  unfold binQ
  constructor
  · intro h
    split_ifs at h with h1 h2 h3 h4
    · exact absurd (Val.str.inj h) (by decide)
    · exact absurd (Val.str.inj h) (by decide)
    · exact h3
    · exact absurd (Val.str.inj h) (by decide)
  · intro h
    rw [if_neg (by rintro ⟨_, hb⟩; linarith [h.1]),
      if_neg (by rintro ⟨_, hb⟩; linarith [h.1]), if_pos h]

theorem binQ_eq_top (q : ℚ) : binQ q = Val.str "65+" ↔ 65 ≤ q ∧ q < 100 := by
  unfold binQ
  constructor
  · intro h
    split_ifs at h with h1 h2 h3 h4
    · exact absurd (Val.str.inj h) (by decide)
    · exact absurd (Val.str.inj h) (by decide)
    · exact absurd (Val.str.inj h) (by decide)
    · exact h4
  · intro h
    rw [if_neg (by rintro ⟨_, hb⟩; linarith [h.1]),
      if_neg (by rintro ⟨_, hb⟩; linarith [h.1]),
      if_neg (by rintro ⟨_, hb⟩; linarith [h.1]), if_pos h]

theorem binQ_eq_na (q : ℚ) : binQ q = Val.na ↔ q < 16 ∨ 100 ≤ q := by
  unfold binQ
  constructor
  · intro h
    split_ifs at h with h1 h2 h3 h4
    rcases lt_or_le q 16 with hq | hq
    · exact Or.inl hq
    · right
      have c1 : 25 ≤ q := not_lt.1 (fun hc => h1 ⟨hq, hc⟩)
      have c2 : 40 ≤ q := not_lt.1 (fun hc => h2 ⟨by linarith, hc⟩)
      have c3 : 65 ≤ q := not_lt.1 (fun hc => h3 ⟨by linarith, hc⟩)
      exact not_lt.1 (fun hc => h4 ⟨by linarith, hc⟩)
  · intro h
    rcases h with h | h
    · rw [if_neg (by rintro ⟨ha, _⟩; linarith),
        if_neg (by rintro ⟨ha, _⟩; linarith),
        if_neg (by rintro ⟨ha, _⟩; linarith),
        if_neg (by rintro ⟨ha, _⟩; linarith)]
    · rw [if_neg (by rintro ⟨_, hb⟩; linarith),
        if_neg (by rintro ⟨_, hb⟩; linarith),
        if_neg (by rintro ⟨_, hb⟩; linarith),
        if_neg (by rintro ⟨_, hb⟩; linarith)]

/-! Pointwise facts about imputation and medians. -/

theorem fillna_getElem_na (co : Col) (v : Val) (j : ℕ)
    (h : co[j]? = some Val.na) : (fillna co v)[j]? = some v := by
  unfold fillna
  rw [List.getElem?_map, h]
  simp

theorem fillna_getElem_not_na (co : Col) (v w : Val) (j : ℕ)
    (h : co[j]? = some w) (hw : w ≠ Val.na) : (fillna co v)[j]? = some w := by
  unfold fillna
  rw [List.getElem?_map, h]
  simp [hw]

theorem mem_fillna_num_ne_na (c : Col) (q : ℚ) :
    ∀ v ∈ fillna c (Val.num q), v ≠ Val.na := by
  intro v hv
  unfold fillna at hv
  rcases List.mem_map.1 hv with ⟨x, _, rfl⟩
  by_cases hx : x = Val.na <;> simp [hx]

theorem mem_map_flagTotal_ne_na (p : Col) :
    ∀ v ∈ p.map flagTotal, v ≠ Val.na := by
  intro v hv
  rcases List.mem_map.1 hv with ⟨x, _, rfl⟩
  cases x <;> simp [flagTotal]

theorem insertSorted_length (a : ℚ) (l : List ℚ) :
    (insertSorted a l).length = l.length + 1 := by
  induction l with
  | nil => rfl
  | cons b l ih =>
    unfold insertSorted
    by_cases h : a ≤ b
    · simp [h]
    · simp [h, ih]

theorem sortQ_length (l : List ℚ) : (sortQ l).length = l.length := by
  induction l with
  | nil => rfl
  | cons a l ih =>
    show (insertSorted a (sortQ l)).length = l.length + 1
    rw [insertSorted_length, ih]

theorem medianList_isSome (xs : List ℚ) (h : xs ≠ []) :
    ∃ q, medianList xs = some q := by
  have h0 : (sortQ xs).length ≠ 0 := by
    rw [sortQ_length]
    simpa using h
  dsimp only [medianList]
  rw [if_neg h0]
  have hlt : (sortQ xs).length / 2 < (sortQ xs).length :=
    Nat.div_lt_self (Nat.pos_of_ne_zero h0) (by norm_num)
  by_cases hpar : (sortQ xs).length % 2 = 1
  · rw [if_pos hpar, List.getElem?_eq_getElem hlt]
    exact ⟨_, rfl⟩
  · rw [if_neg hpar, List.getElem?_eq_getElem hlt,
      List.getElem?_eq_getElem (lt_of_le_of_lt (Nat.sub_le _ _) hlt)]
    exact ⟨_, rfl⟩

theorem medVal_of_some (c : Col) (q : ℚ)
    (h : medianList (colNums c) = some q) : medVal c = Val.num q := by
  unfold medVal
  rw [h]

/-! Idempotence of header normalization. -/

theorem toNat_ofNat_valid (n : ℕ) (h : n.isValidChar) :
    (Char.ofNat n).toNat = n := by
  unfold Char.ofNat
  rw [dif_pos h]
  rfl

theorem toLower_eq_self_of_not (ch : Char)
    (h : ¬(ch.toNat ≥ 65 ∧ ch.toNat ≤ 90)) : ch.toLower = ch := by
  unfold Char.toLower
  exact if_neg h

theorem toLower_idem (ch : Char) : ch.toLower.toLower = ch.toLower := by
  by_cases h : ch.toNat ≥ 65 ∧ ch.toNat ≤ 90
  · have ht : ch.toLower.toNat = ch.toNat + 32 := by
      unfold Char.toLower
      rw [if_pos h]
      exact toNat_ofNat_valid _ (Or.inl (by omega))
    have hno : ¬(ch.toLower.toNat ≥ 65 ∧ ch.toLower.toNat ≤ 90) := by
      rw [ht]
      omega
    exact toLower_eq_self_of_not _ hno
  · rw [toLower_eq_self_of_not ch h]
    exact toLower_eq_self_of_not ch h

theorem normChar_idem (ch : Char) : normChar (normChar ch) = normChar ch := by
  unfold normChar
  by_cases h : ch.toLower = ' '
  · rw [if_pos h, if_neg (by decide)]
    decide
  · rw [if_neg h, toLower_idem, if_neg h]

theorem normalizeName_idem (s : String) :
    normalizeName (normalizeName s) = normalizeName s := by
  unfold normalizeName
  congr 1
  rw [show (String.mk (s.data.map normChar)).data = s.data.map normChar
    from rfl]
  rw [List.map_map]
  exact List.map_congr_left (fun ch _ => normChar_idem ch)

theorem namesNormal_normalizeHeaders (t : Table) :
    NamesNormal t.normalizeHeaders := by
  intro p hp
  unfold Table.normalizeHeaders at hp
  rcases List.mem_map.1 hp with ⟨q, _, rfl⟩
  exact normalizeName_idem q.1

theorem namesNormal_setCol (t : Table) (n : String) (c : Col)
    (ht : NamesNormal t) (hn : normalizeName n = n) :
    NamesNormal (t.setCol n c) := by
  intro p hp
  rcases mem_setCol _ _ _ _ hp with h | rfl
  · exact ht p h
  · exact hn

theorem namesNormal_mk_removeNames (t : Table) (ns : List String)
    (h : NamesNormal t) : NamesNormal (Table.mk (removeNames t.cols ns)) :=
  fun p hp => h p (mem_removeNames _ _ _ hp)

theorem namesNormal_pipe (u : Table) (a c m i p : Col)
    (hu : NamesNormal u) : NamesNormal (pipeTables u a c m i p) := by
  dsimp only [pipeTables]
  exact namesNormal_mk_removeNames _ _
    (namesNormal_setCol _ _ _
      (namesNormal_setCol _ _ _
        (namesNormal_setCol _ _ _
          (namesNormal_setCol _ _ _
            (namesNormal_setCol _ _ _
              (namesNormal_setCol _ _ _
                (namesNormal_setCol _ _ _
                  (namesNormal_setCol _ _ _ hu (by decide))
                  (by decide)) (by decide)) (by decide)) (by decide))
            (by decide)) (by decide)) (by decide))

theorem hasName_eq_false_iff (l : List (String × Col)) (n : String) :
    hasName l n = false ↔ ∀ p ∈ l, p.1 ≠ n := by
  induction l with
  | nil => simp [hasName]
  | cons p l ih =>
    unfold hasName
    by_cases hp : p.1 = n
    · simp [hp]
    · simp [hp, ih]

theorem getCol_error_form (t : Table) (n : String) (e : PyError)
    (h : t.getCol n = .error e) : e = .keyError n := by
  unfold Table.getCol at h
  cases hl : lookupCol t.cols n with
  | some c2 => rw [hl] at h; cases h
  | none =>
    rw [hl] at h
    exact (Except.error.inj h).symm

/-! Claim theorems. -/

/-- Claim C8 (confirmed): extraction on a nonexistent path returns the
absent-result signal `none` instead of raising, and the transform stage maps
the absent-result signal to the absent-result signal without raising, for
every filesystem, path and invocation. -/
theorem C8_absent_signal (fs : String → FileContent) (pth : String)
    (h : fs pth = .absent) :
    extract_data fs pth = .ok none ∧ transform_data none = .ok none := by
  constructor
  · unfold extract_data
    rw [h]
  · rfl

/-- Witness for C8 at a concrete filesystem with no files. -/
theorem C8_absent_signal_witness :
    extract_data (fun _ => FileContent.absent) "Car_Insurance_Claim.csv" =
      .ok none ∧ transform_data none = .ok none :=
  C8_absent_signal (fun _ => FileContent.absent) "Car_Insurance_Claim.csv" rfl

/-- Claim C1 counterexample: on a one-row table whose `age` is exactly 100
the transform leaves `age_group` unmapped (the missing marker), whereas the
claim says age 100 maps to the `65+` bin. -/
theorem C1_counterexample :
    (transformTable tableAge100).bind (fun t => t.getCol "age_group") =
      .ok [Val.na] ∧ Val.na ≠ Val.str "65+" :=
  ⟨by rfl, by decide⟩

/-- Claim C1 (amended): whenever the transform returns a table, the derived
`age_group` column is the post-imputation age column mapped through integer
truncation and the bins with edges `[16, 25, 40, 65, 100]`; every interval,
the final one included, is left-inclusive and right-exclusive, so 16 maps to
`16-25`, 25 to `26-40`, 40 to `41-65`, 65 to `65+`, and any age below 16 or
at least 100 — 100 itself included — is unmapped. -/
theorem C1_binning (t0 t' : Table) (a : Col)
    (hA : (t0.normalizeHeaders).getCol "age" = .ok a)
    (hok : transformTable t0 = .ok t') :
    t'.getCol "age_group" = .ok ((imputeAges a).map numBin) ∧
    (∀ (j : ℕ) (q : ℚ), (imputeAges a)[j]? = some (Val.num q) →
      ((imputeAges a).map numBin)[j]? = some (binQ ((truncQ q : ℤ) : ℚ))) ∧
    (∀ q : ℚ,
      (binQ q = Val.str "16-25" ↔ 16 ≤ q ∧ q < 25) ∧
      (binQ q = Val.str "26-40" ↔ 25 ≤ q ∧ q < 40) ∧
      (binQ q = Val.str "41-65" ↔ 40 ≤ q ∧ q < 65) ∧
      (binQ q = Val.str "65+" ↔ 65 ≤ q ∧ q < 100) ∧
      (binQ q = Val.na ↔ q < 16 ∨ 100 ≤ q)) := by
  rcases transform_ok_inv t0 t' hok with
    ⟨a2, c2, m2, i2, p2, hA2, _, _, _, _, _, _, _, rfl⟩
  have ha : a2 = a := Except.ok.inj (hA2.symm.trans hA)
  subst ha
  refine ⟨pipe_getCol_ageGroup _ _ _ _ _ _, ?_, ?_⟩
  · intro j q hj
    rw [List.getElem?_map, hj]
    rfl
  · intro q
    exact ⟨binQ_eq_low q, binQ_eq_mid q, binQ_eq_upper q, binQ_eq_top q,
      binQ_eq_na q⟩

/-- Witness for C1 at `sampleTable` (ages 20, "bad", 45, 100). -/
theorem C1_binning_witness :
    sampleOut.getCol "age_group" =
      .ok ((imputeAges
        [Val.num 20, Val.str "bad", Val.num 45, Val.num 100]).map numBin) :=
  (C1_binning sampleTable sampleOut
    [Val.num 20, Val.str "bad", Val.num 45, Val.num 100] (by rfl) (by rfl)).1

/-- Claim C5 (confirmed): whenever the transform returns a table, its
`had_past_accidents` column is the `past_accidents` column mapped through
the flag; a missing entry yields 0 and a numeric entry `q` yields 1 exactly
when `q > 0` and 0 otherwise (in particular 0 for `q = 0`). -/
theorem C5_accident_flag (t0 t' : Table) (p : Col)
    (hP : (t0.normalizeHeaders).getCol "past_accidents" = .ok p)
    (hok : transformTable t0 = .ok t') :
    t'.getCol "had_past_accidents" = .ok (p.map flagTotal) ∧
    (∀ j : ℕ, p[j]? = some Val.na →
      (p.map flagTotal)[j]? = some (Val.num 0)) ∧
    (∀ (j : ℕ) (q : ℚ), p[j]? = some (Val.num q) →
      (p.map flagTotal)[j]? = some (Val.num (if 0 < q then 1 else 0))) := by
  rcases transform_ok_inv t0 t' hok with
    ⟨a2, c2, m2, i2, p2, _, _, _, _, hP2, _, _, _, rfl⟩
  have hp : p2 = p := Except.ok.inj (hP2.symm.trans hP)
  subst hp
  refine ⟨pipe_getCol_flag _ _ _ _ _ _, ?_, ?_⟩
  · intro j hj
    rw [List.getElem?_map, hj]
    rfl
  · intro j q hj
    rw [List.getElem?_map, hj]
    rfl

/-- Witness for C5 at `sampleTable` (accidents 0, 2, missing, 1). -/
theorem C5_accident_flag_witness :
    sampleOut.getCol "had_past_accidents" =
      .ok ([Val.num 0, Val.num 2, Val.na, Val.num 1].map flagTotal) :=
  (C5_accident_flag sampleTable sampleOut
    [Val.num 0, Val.num 2, Val.na, Val.num 1] (by rfl) (by rfl)).1

/-- Claim C4 counterexample: on a one-row table whose `age` is 10 the
transform output has a missing value in the derived `age_group` column,
contradicting the claim that the derived columns have no missing values. -/
theorem C4_counterexample :
    (transformTable tableAge10).bind (fun t => t.getCol "age_group") =
      .ok [Val.na] := by rfl

/-- Claim C4 (amended): whenever the transform returns a table, the derived
`had_past_accidents` column has no missing values, while the derived
`age_group` column is missing exactly at rows whose post-imputation
truncated age falls outside every bin (below 16 or at least 100). -/
theorem C4_no_missing_derived (t0 t' : Table) (a p : Col)
    (hA : (t0.normalizeHeaders).getCol "age" = .ok a)
    (hP : (t0.normalizeHeaders).getCol "past_accidents" = .ok p)
    (hok : transformTable t0 = .ok t') :
    t'.getCol "had_past_accidents" = .ok (p.map flagTotal) ∧
    (∀ v ∈ p.map flagTotal, v ≠ Val.na) ∧
    t'.getCol "age_group" = .ok ((imputeAges a).map numBin) ∧
    (∀ (j : ℕ) (q : ℚ), (imputeAges a)[j]? = some (Val.num q) →
      (((imputeAges a).map numBin)[j]? = some Val.na ↔
        ((truncQ q : ℤ) : ℚ) < 16 ∨ 100 ≤ ((truncQ q : ℤ) : ℚ))) := by
  rcases transform_ok_inv t0 t' hok with
    ⟨a2, c2, m2, i2, p2, hA2, _, _, _, hP2, _, _, _, rfl⟩
  have ha : a2 = a := Except.ok.inj (hA2.symm.trans hA)
  have hp : p2 = p := Except.ok.inj (hP2.symm.trans hP)
  refine ⟨?_, mem_map_flagTotal_ne_na _, ?_, ?_⟩
  · rw [pipe_getCol_flag, hp]
  · rw [pipe_getCol_ageGroup, ha]
  · intro j q hj
    rw [List.getElem?_map, hj]
    show some (numBin (Val.num q)) = some Val.na ↔ _
    rw [Option.some.injEq]
    exact binQ_eq_na _

/-- Witness for C4 at `sampleTable`. -/
theorem C4_no_missing_derived_witness :
    sampleOut.getCol "had_past_accidents" =
      .ok ([Val.num 0, Val.num 2, Val.na, Val.num 1].map flagTotal) ∧
    sampleOut.getCol "age_group" =
      .ok ((imputeAges
        [Val.num 20, Val.str "bad", Val.num 45, Val.num 100]).map numBin) := by
  have h := C4_no_missing_derived sampleTable sampleOut
    [Val.num 20, Val.str "bad", Val.num 45, Val.num 100]
    [Val.num 0, Val.num 2, Val.na, Val.num 1] (by rfl) (by rfl) (by rfl)
  exact ⟨h.1, h.2.2.1⟩

/-- Claim C3 (confirmed): whenever the transform returns a table and the
input `credit_score` and `annual_mileage` columns have a defined median
(at least one non-missing value), the two output columns are the input
columns with every missing entry replaced by the median of the column's
non-missing values computed before any filling; no missing entries remain
and non-missing entries pass through unchanged. -/
theorem C3_median_fill (t0 t' : Table) (cs ms : Col) (qc qm : ℚ)
    (hC : (t0.normalizeHeaders).getCol "credit_score" = .ok cs)
    (hM : (t0.normalizeHeaders).getCol "annual_mileage" = .ok ms)
    (hok : transformTable t0 = .ok t')
    (hqc : medianList (colNums cs) = some qc)
    (hqm : medianList (colNums ms) = some qm) :
    t'.getCol "credit_score" = .ok (fillna cs (Val.num qc)) ∧
    t'.getCol "annual_mileage" = .ok (fillna ms (Val.num qm)) ∧
    (∀ v ∈ fillna cs (Val.num qc), v ≠ Val.na) ∧
    (∀ v ∈ fillna ms (Val.num qm), v ≠ Val.na) ∧
    (∀ j : ℕ, cs[j]? = some Val.na →
      (fillna cs (Val.num qc))[j]? = some (Val.num qc)) ∧
    (∀ (j : ℕ) (v : Val), cs[j]? = some v → v ≠ Val.na →
      (fillna cs (Val.num qc))[j]? = some v) ∧
    (∀ j : ℕ, ms[j]? = some Val.na →
      (fillna ms (Val.num qm))[j]? = some (Val.num qm)) ∧
    (∀ (j : ℕ) (v : Val), ms[j]? = some v → v ≠ Val.na →
      (fillna ms (Val.num qm))[j]? = some v) := by
  rcases transform_ok_inv t0 t' hok with
    ⟨a2, c2, m2, i2, p2, _, hC2, hM2, _, _, _, _, _, rfl⟩
  have hc : c2 = cs := Except.ok.inj (hC2.symm.trans hC)
  have hm : m2 = ms := Except.ok.inj (hM2.symm.trans hM)
  refine ⟨?_, ?_, mem_fillna_num_ne_na _ _, mem_fillna_num_ne_na _ _,
    fun j hj => fillna_getElem_na _ _ j hj,
    fun j v hj hv => fillna_getElem_not_na _ _ v j hj hv,
    fun j hj => fillna_getElem_na _ _ j hj,
    fun j v hj hv => fillna_getElem_not_na _ _ v j hj hv⟩
  · rw [pipe_getCol_credit, hc, medVal_of_some _ _ hqc]
  · rw [pipe_getCol_mileage, hm, medVal_of_some _ _ hqm]

/-- Witness for C3 at `sampleTable` (medians 650 and 12000). -/
theorem C3_median_fill_witness :
    sampleOut.getCol "credit_score" =
      .ok (fillna [Val.num 610, Val.na, Val.num 700, Val.num 650]
        (Val.num 650)) ∧
    sampleOut.getCol "annual_mileage" =
      .ok (fillna [Val.num 12000, Val.num 11000, Val.na, Val.num 13000]
        (Val.num 12000)) := by
  have h := C3_median_fill sampleTable sampleOut
    [Val.num 610, Val.na, Val.num 700, Val.num 650]
    [Val.num 12000, Val.num 11000, Val.na, Val.num 13000] 650 12000
    (by rfl) (by rfl) (by rfl) (by rfl) (by rfl)
  exact ⟨h.1, h.2.1⟩

/-- Claim C7 counterexample: a non-numeric string in `past_accidents` makes
the accident-flag step raise a `TypeError` (Python cannot compare `str` with
`int`), aborting the run — the claim instead says malformed `past_accidents`
entries are treated as 0 and never abort. -/
theorem C7_counterexample :
    transformTable tableBadPA = .error .typeError := by rfl

/-- Claim C7 (amended): no transform step raises on a malformed `age` entry —
any such entry is coerced to the missing marker and the transform returns a
table whatever the `age` column holds — and a missing `past_accidents` entry
is treated as the default 0; but a non-numeric string `past_accidents` entry
raises a type error. -/
theorem C7_malformed_fields (t0 : Table) (a cs ms i p : Col)
    (hA : (t0.normalizeHeaders).getCol "age" = .ok a)
    (hC : (t0.normalizeHeaders).getCol "credit_score" = .ok cs)
    (hM : (t0.normalizeHeaders).getCol "annual_mileage" = .ok ms)
    (hI : (t0.normalizeHeaders).getCol "id" = .ok i)
    (hP : (t0.normalizeHeaders).getCol "past_accidents" = .ok p)
    (hCs : hasStr cs = false) (hMs : hasStr ms = false)
    (hPs : hasStr p = false) :
    transformTable t0 = .ok (pipeTables t0.normalizeHeaders a cs ms i p) ∧
    (∀ (j : ℕ) (s : String), a[j]? = some (Val.str s) → parseNum s = none →
      (coerceAges a)[j]? = some Val.na) ∧
    (pipeTables t0.normalizeHeaders a cs ms i p).getCol
      "had_past_accidents" = .ok (p.map flagTotal) ∧
    (∀ j : ℕ, p[j]? = some Val.na →
      (p.map flagTotal)[j]? = some (Val.num 0)) := by
  refine ⟨transform_eval t0 a cs ms i p hA hC hM hI hP hCs hMs hPs, ?_,
    pipe_getCol_flag _ _ _ _ _ _, ?_⟩
  · intro j s hj hps
    unfold coerceAges
    rw [List.getElem?_map, hj]
    simp [toNumericCoerce, hps]
  · intro j hj
    rw [List.getElem?_map, hj]
    rfl

/-- Witness for C7 at `sampleTable`, whose `age` column holds the malformed
entry `"bad"`. -/
theorem C7_malformed_fields_witness :
    transformTable sampleTable =
      .ok (pipeTables sampleTable.normalizeHeaders
        [Val.num 20, Val.str "bad", Val.num 45, Val.num 100]
        [Val.num 610, Val.na, Val.num 700, Val.num 650]
        [Val.num 12000, Val.num 11000, Val.na, Val.num 13000]
        [Val.str "a1", Val.str "a2", Val.str "a3", Val.str "a4"]
        [Val.num 0, Val.num 2, Val.na, Val.num 1]) :=
  (C7_malformed_fields sampleTable
    [Val.num 20, Val.str "bad", Val.num 45, Val.num 100]
    [Val.num 610, Val.na, Val.num 700, Val.num 650]
    [Val.num 12000, Val.num 11000, Val.na, Val.num 13000]
    [Val.str "a1", Val.str "a2", Val.str "a3", Val.str "a4"]
    [Val.num 0, Val.num 2, Val.na, Val.num 1]
    (by rfl) (by rfl) (by rfl) (by rfl) (by rfl)
    (by rfl) (by rfl) (by rfl)).1

/-- Claim C9 (confirmed): when every `age` value is missing or malformed
(the post-coercion column has no numeric entry) the transform still returns
a table, fills every age with the fixed default 30 and bins those rows into
`26-40`; otherwise missing ages are filled with the median of the
post-coercion age column. -/
theorem C9_age_median_fallback (t0 : Table) (a cs ms i p : Col)
    (hA : (t0.normalizeHeaders).getCol "age" = .ok a)
    (hC : (t0.normalizeHeaders).getCol "credit_score" = .ok cs)
    (hM : (t0.normalizeHeaders).getCol "annual_mileage" = .ok ms)
    (hI : (t0.normalizeHeaders).getCol "id" = .ok i)
    (hP : (t0.normalizeHeaders).getCol "past_accidents" = .ok p)
    (hCs : hasStr cs = false) (hMs : hasStr ms = false)
    (hPs : hasStr p = false) :
    transformTable t0 = .ok (pipeTables t0.normalizeHeaders a cs ms i p) ∧
    (colNums (coerceAges a) = [] →
      imputeAges a = a.map (fun _ => Val.num 30) ∧
      (pipeTables t0.normalizeHeaders a cs ms i p).getCol "age_group" =
        .ok (a.map (fun _ => Val.str "26-40"))) ∧
    (∀ qa : ℚ, medianList (colNums (coerceAges a)) = some qa →
      imputeAges a = fillna (coerceAges a) (Val.num qa)) := by
  refine ⟨transform_eval t0 a cs ms i p hA hC hM hI hP hCs hMs hPs, ?_, ?_⟩
  · intro hdeg
    have hall : ∀ v ∈ coerceAges a, v = Val.na := by
      intro v hv
      rcases List.mem_map.1 hv with ⟨y, hy, rfl⟩
      rcases toNumericCoerce_num_or_na y with ⟨q, hq⟩ | hq
      · exfalso
        have hmem : q ∈ colNums (coerceAges a) := by
          unfold colNums
          exact List.mem_filterMap.2 ⟨Val.num q, hq ▸ hv, rfl⟩
        rw [hdeg] at hmem
        simp at hmem
      · exact hq
    have himp : imputeAges a = a.map (fun _ => Val.num 30) := by
      have hmv : medVal (coerceAges a) = Val.na := by
        unfold medVal
        rw [hdeg]
        rfl
      have hfv : ageFillVal (coerceAges a) = Val.num 30 := by
        unfold ageFillVal
        rw [hmv, if_pos rfl]
      unfold imputeAges
      rw [hfv]
      unfold fillna coerceAges
      rw [List.map_map]
      refine List.map_congr_left ?_
      intro x hx
      have hx2 : toNumericCoerce x = Val.na :=
        hall (toNumericCoerce x) (List.mem_map.2 ⟨x, hx, rfl⟩)
      simp [Function.comp, hx2]
    refine ⟨himp, ?_⟩
    rw [pipe_getCol_ageGroup, himp, List.map_map]
    congr 1
  · intro qa hqa
    unfold imputeAges ageFillVal
    rw [medVal_of_some _ _ hqa]
    simp

/-- Witness for C9 at `tableAllBadAge` (ages `"bad"` and missing). -/
theorem C9_age_median_fallback_witness :
    imputeAges [Val.str "bad", Val.na] =
      [Val.str "bad", Val.na].map (fun _ => Val.num 30) :=
  ((C9_age_median_fallback tableAllBadAge [Val.str "bad", Val.na]
    [Val.num 600, Val.num 620] [Val.num 12000, Val.na]
    [Val.str "a", Val.str "b"] [Val.num 0, Val.num 3]
    (by rfl) (by rfl) (by rfl) (by rfl) (by rfl)
    (by rfl) (by rfl) (by rfl)).2.1 (by rfl)).1

/-- Claim C2 (confirmed): whenever the transform returns a table, every
column of the output has exactly the row count of the input table; no
operation of the transform drops a row. -/
theorem C2_row_count (t0 t' : Table) (n : ℕ)
    (hlen : ∀ q ∈ t0.cols, q.2.length = n)
    (hok : transformTable t0 = .ok t') :
    ∀ q ∈ t'.cols, q.2.length = n := by
  rcases transform_ok_inv t0 t' hok with
    ⟨a, cs, ms, i, p, hA, hC, hM, hI, hP, _, _, _, rfl⟩
  have hu : ∀ q ∈ (t0.normalizeHeaders).cols, q.2.length = n := by
    intro q hq
    unfold Table.normalizeHeaders at hq
    rcases List.mem_map.1 hq with ⟨r, hr, rfl⟩
    exact hlen r hr
  have la : a.length = n := by
    rcases getCol_ok_mem _ _ _ hA with ⟨q, hq, hqe⟩
    rw [← hqe]
    exact hu q hq
  have lc : cs.length = n := by
    rcases getCol_ok_mem _ _ _ hC with ⟨q, hq, hqe⟩
    rw [← hqe]
    exact hu q hq
  have lm : ms.length = n := by
    rcases getCol_ok_mem _ _ _ hM with ⟨q, hq, hqe⟩
    rw [← hqe]
    exact hu q hq
  have li : i.length = n := by
    rcases getCol_ok_mem _ _ _ hI with ⟨q, hq, hqe⟩
    rw [← hqe]
    exact hu q hq
  have lp : p.length = n := by
    rcases getCol_ok_mem _ _ _ hP with ⟨q, hq, hqe⟩
    rw [← hqe]
    exact hu q hq
  intro q hq
  dsimp only [pipeTables] at hq
  rcases mem_setCol _ _ _ _ (mem_removeNames _ _ _ hq) with hq | rfl
  · rcases mem_setCol _ _ _ _ hq with hq | rfl
    · rcases mem_setCol _ _ _ _ hq with hq | rfl
      · rcases mem_setCol _ _ _ _ hq with hq | rfl
        · rcases mem_setCol _ _ _ _ hq with hq | rfl
          · rcases mem_setCol _ _ _ _ hq with hq | rfl
            · rcases mem_setCol _ _ _ _ hq with hq | rfl
              · rcases mem_setCol _ _ _ _ hq with hq | rfl
                · exact hu q hq
                · simpa [coerceAges] using la
              · simpa [fillna] using lc
            · simpa [fillna] using lm
          · simpa [imputeAges, fillna, coerceAges] using la
        · simpa using li
      · simpa [imputeAges, fillna, coerceAges] using la
    · simpa [imputeAges, fillna, coerceAges] using la
  · simpa using lp

/-- Witness for C2: the `id` column of the transform of the one-row
`tinyTable` has one entry. -/
theorem C2_row_count_witness : ([Val.str "a"] : Col).length = 1 :=
  C2_row_count tinyTable tinyOut 1 (by decide) (by rfl)
    ("id", [Val.str "a"]) (by decide)

/-- Claim C6 counterexample: the transform is not idempotent — running it on
its own output raises a `KeyError` (the `age` column was dropped) instead of
returning the same table. -/
theorem C6_counterexample :
    transformTable tinyTable = .ok tinyOut ∧
    (transformTable tinyTable).bind transformTable =
      .error (.keyError "age") :=
  ⟨by rfl, by rfl⟩

theorem lookupCol_normalizeHeaders_none (t : Table) (n : String)
    (h : ∀ p ∈ t.cols, normalizeName p.1 ≠ n) :
    lookupCol t.normalizeHeaders.cols n = none := by
  apply lookupCol_eq_none_of_names
  intro q hq
  unfold Table.normalizeHeaders at hq
  rcases List.mem_map.1 hq with ⟨r, hr, rfl⟩
  exact h r hr

theorem transform_no_age_keyError (t : Table)
    (hnn : NamesNormal t) (hage : hasName t.cols "age" = false) :
    transformTable t = .error (.keyError "age") := by
  have hnames := (hasName_eq_false_iff _ _).1 hage
  have hlook : lookupCol t.normalizeHeaders.cols "age" = none :=
    lookupCol_normalizeHeaders_none t "age"
      (fun r hr => by rw [hnn r hr]; exact hnames r hr)
  have hg : t.normalizeHeaders.getCol "age" = .error (.keyError "age") := by
    unfold Table.getCol
    rw [hlook]
  unfold transformTable
  dsimp only
  rw [hg, error_bind]

/-- Claim C6 (amended): the transform is deterministic but not idempotent:
applying it to any of its own outputs raises a missing-key error for `age`
(the output schema no longer has the `age` column), rather than returning
the same table. -/
theorem C6_second_run_raises (t0 t' : Table)
    (hok : transformTable t0 = .ok t') :
    transformTable t' = .error (.keyError "age") := by
  rcases transform_ok_inv t0 t' hok with
    ⟨a, cs, ms, i, p, _, _, _, _, _, _, _, _, rfl⟩
  exact transform_no_age_keyError _
    (namesNormal_pipe _ _ _ _ _ _ (namesNormal_normalizeHeaders t0))
    (pipe_hasName_age_false _ _ _ _ _ _)

/-- Witness for C6 at `tinyTable`. -/
theorem C6_second_run_raises_witness :
    transformTable tinyOut = .error (.keyError "age") :=
  C6_second_run_raises tinyTable tinyOut (by rfl)

/-- Claim C10 (confirmed): a non-absent input table that, after header
normalization, lacks any of the columns `age`, `credit_score`,
`annual_mileage`, `past_accidents` or `id` makes the transform raise a
missing-key error rather than return a table or the absent-result signal
(assuming the numeric columns that are present hold no string entries). -/
theorem C10_missing_column (t0 : Table)
    (hmiss : ¬((t0.normalizeHeaders).hasColB "age" = true ∧
      (t0.normalizeHeaders).hasColB "credit_score" = true ∧
      (t0.normalizeHeaders).hasColB "annual_mileage" = true ∧
      (t0.normalizeHeaders).hasColB "past_accidents" = true ∧
      (t0.normalizeHeaders).hasColB "id" = true))
    (hCt : ∀ cs, (t0.normalizeHeaders).getCol "credit_score" = .ok cs →
      hasStr cs = false)
    (hMt : ∀ ms, (t0.normalizeHeaders).getCol "annual_mileage" = .ok ms →
      hasStr ms = false) :
    isKeyError (transform_data (some t0)) = true := by
  unfold transform_data
  unfold transformTable
  dsimp only
  cases hA : (t0.normalizeHeaders).getCol "age" with
  | error e =>
    rw [error_bind, getCol_error_form _ _ _ hA]
    rfl
  | ok a =>
  rw [ok_bind]
  rw [show List.map toNumericCoerce a = coerceAges a from rfl]
  rw [getCol_setCol_ne _ _ _ _ (by decide)]
  cases hC : (t0.normalizeHeaders).getCol "credit_score" with
  | error e =>
    rw [error_bind, getCol_error_form _ _ _ hC]
    rfl
  | ok cs =>
  rw [ok_bind, seriesMedian_of_noStr cs (hCt cs hC), ok_bind]
  rw [getCol_setCol_ne _ _ _ _ (by decide),
    getCol_setCol_ne _ _ _ _ (by decide)]
  cases hM : (t0.normalizeHeaders).getCol "annual_mileage" with
  | error e =>
    rw [error_bind, getCol_error_form _ _ _ hM]
    rfl
  | ok ms =>
  rw [ok_bind, seriesMedian_of_noStr ms (hMt ms hM), ok_bind]
  rw [getCol_setCol_ne _ _ _ _ (by decide),
    getCol_setCol_ne _ _ _ _ (by decide), getCol_setCol_self, ok_bind]
  rw [seriesMedian_of_noStr _ (hasStr_coerceAges a), ok_bind]
  rw [show fillna (coerceAges a)
      (if medVal (coerceAges a) = Val.na then Val.num 30
       else medVal (coerceAges a)) = imputeAges a from rfl]
  rw [getCol_setCol_ne _ _ _ _ (by decide),
    getCol_setCol_ne _ _ _ _ (by decide),
    getCol_setCol_ne _ _ _ _ (by decide),
    getCol_setCol_ne _ _ _ _ (by decide)]
  cases hI : (t0.normalizeHeaders).getCol "id" with
  | error e =>
    rw [error_bind, getCol_error_form _ _ _ hI]
    rfl
  | ok i =>
  rw [ok_bind]
  rw [getCol_setCol_ne _ _ _ _ (by decide), getCol_setCol_self, ok_bind]
  rw [mapE_astypeIntVal_of_allNum _ (allNum_imputeAges a), ok_bind]
  rw [getCol_setCol_self, ok_bind]
  rw [mapE_cutCell_of_allNum _
    (allNum_map_astypeIntTotal _ (allNum_imputeAges a)), ok_bind]
  rw [getCol_setCol_ne _ _ _ _ (by decide),
    getCol_setCol_ne _ _ _ _ (by decide),
    getCol_setCol_ne _ _ _ _ (by decide),
    getCol_setCol_ne _ _ _ _ (by decide),
    getCol_setCol_ne _ _ _ _ (by decide),
    getCol_setCol_ne _ _ _ _ (by decide),
    getCol_setCol_ne _ _ _ _ (by decide)]
  cases hP : (t0.normalizeHeaders).getCol "past_accidents" with
  | error e =>
    rw [error_bind, getCol_error_form _ _ _ hP]
    rfl
  | ok p =>
  exact absurd ⟨getCol_ok_hasName _ _ _ hA, getCol_ok_hasName _ _ _ hC,
    getCol_ok_hasName _ _ _ hM, getCol_ok_hasName _ _ _ hP,
    getCol_ok_hasName _ _ _ hI⟩ hmiss

/-- Witness for C10 at `tableNoPA`, which lacks `past_accidents`. -/
theorem C10_missing_column_witness :
    isKeyError (transform_data (some tableNoPA)) = true :=
  C10_missing_column tableNoPA (by decide)
    (fun cs hc => by cases hc; rfl) (fun ms hm => by cases hm; rfl)

end ETL
